import Mathlib

/-!
# snorm.c: the srnorm instantiation of the stors sampler template

`src/snorm.c` is a configuration file for the C preprocessor: it defines the
names `NAME`, `CNUM`, `L_TAIL`, `R_TAIL` and the function-like definition
`F(sample)`, includes the three template files that consume them, and
undefines three of the names again.

The embedding has two layers.

* Token layer: the file is a list of preprocessor directives over C tokens.
  Running the directives gives the definition table in force where a template
  file is included; a function-like definition is expanded by textual
  substitution of its parameter, and the resulting tokens are parsed with the
  C precedence of unary minus, `*` and `+`/`-`.
* Value layer: `F exp sample` is the body of the definition `F` read as an
  expression in a field, with the library function `exp` passed in.  Over the
  real numbers it is used with `Real.exp`.  Decimal literals are read exactly
  (as rationals), not as rounded binary floating-point numbers.
-/

namespace Snorm

/-! ## Tokens and directives -/

/-- Preprocessing tokens that occur in `snorm.c`.  A decimal literal is kept as
`mantissa / 10 ^ scale`, so `0.3989423` is `num 3989423 7`. -/
inductive Tok
  | num (mantissa scale : ℕ)
  | ident (name : String)
  | star
  | plus
  | minus
  | lparen
  | rparen
  deriving DecidableEq

/-- Right-hand side of a `#define`: the parameter list (absent for an
object-like definition) and the replacement tokens. -/
structure Defn where
  params : Option (List String)
  body : List Tok
  deriving DecidableEq

/-- Preprocessor directives of the file, comments and blank lines dropped. -/
inductive Directive
  | includeFile (file : String)
  | define (name : String) (d : Defn)
  | undefine (name : String)
  deriving DecidableEq

/-- Definition table: the most recent definition of a name comes first. -/
abbrev DefTable := List (String × Defn)

/-- Directive `#undef name`. -/
def DefTable.undefine (t : DefTable) (name : String) : DefTable :=
  t.filter (fun p => p.1 != name)

/-- Directive `#define name d`, replacing an earlier definition of the name. -/
def DefTable.defineAs (t : DefTable) (name : String) (d : Defn) : DefTable :=
  (name, d) :: t.undefine name

/-- Definition of a name, if it has one. -/
def DefTable.find (t : DefTable) (name : String) : Option Defn :=
  t.lookup name

/-- Body of `F`: `(0.3989423 * exp(-0.5 * sample * sample))`. -/
def F_body : List Tok :=
  [.lparen, .num 3989423 7, .star, .ident "exp", .lparen,
   .minus, .num 5 1, .star, .ident "sample", .star, .ident "sample",
   .rparen, .rparen]

/-- The directives of `src/snorm.c`, in file order.  The two lines
`// #define L_ITF(u)(log(2*u))` and `// #define R_ITF(u)(-log(2 - 2 * u))`
are comments and contribute no directive. -/
def snorm_c : List Directive :=
  [ .includeFile "snorm.h",
    .includeFile "macro_var.h",
    .define "NAME" ⟨none, [.ident "srnorm"]⟩,
    .define "CNUM" ⟨none, [.num 1 0]⟩,
    .define "L_TAIL" ⟨none, [.ident "ARS"]⟩,
    .define "R_TAIL" ⟨none, [.ident "ARS"]⟩,
    .define "F" ⟨some ["sample"], F_body⟩,
    .includeFile "stors_sample.c",
    .includeFile "stors_trunc_nav.c",
    .includeFile "stors_sample_trunc.c",
    .undefine "CNUM",
    .undefine "L_TAIL",
    .undefine "R_TAIL" ]

/-- Definition table at the point where `target` is first included.  The
included files are not part of the embedded source; `inc file t` is the table
an included file leaves behind when entered with table `t`. -/
def tableAt (inc : String → DefTable → DefTable) (target : String) :
    DefTable → List Directive → Option DefTable
  | _, [] => none
  | t, .includeFile file :: ds =>
      if file = target then some t else tableAt inc target (inc file t) ds
  | t, .define name d :: ds => tableAt inc target (t.defineAs name d) ds
  | t, .undefine name :: ds => tableAt inc target (t.undefine name) ds

/-- Names the file itself gives a definition to, in file order. -/
def definedNames : List Directive → List String
  | [] => []
  | .define name _ :: ds => name :: definedNames ds
  | _ :: ds => definedNames ds

/-! ## Expansion of a function-like definition -/

/-- Replacement of one body token: a parameter name becomes the tokens of the
matching argument, every other token stays. -/
def substTok (bindings : List (String × List Tok)) : Tok → List Tok
  | .ident x =>
      match bindings.lookup x with
      | some arg => arg
      | none => [.ident x]
  | t => [t]

/-- Invocation of a definition with the given argument token lists.  An
object-like definition takes no arguments; a function-like one needs as many
arguments as it has parameters. -/
def Defn.invoke (d : Defn) (args : List (List Tok)) : Option (List Tok) :=
  match d.params with
  | none => if args.isEmpty then some d.body else none
  | some ps =>
      if ps.length = args.length then
        some (d.body.flatMap (substTok (ps.zip args)))
      else none

/-! ## C expressions -/

/-- Expressions built from the tokens above. -/
inductive Expr
  | lit (mantissa scale : ℕ)
  | var (name : String)
  | neg (e : Expr)
  | mul (a b : Expr)
  | add (a b : Expr)
  | sub (a b : Expr)
  | exp (e : Expr)
  deriving DecidableEq

/-- Expects a closing parenthesis after a parsed sub-expression. -/
def closeParen (wrap : Expr → Expr) :
    Option (Expr × List Tok) → Option (Expr × List Tok)
  | some (e, .rparen :: rest) => some (wrap e, rest)
  | _ => none

mutual
/-- Unary level: unary minus and plus, literals, names, parenthesised
expressions and calls of the library function `exp`. -/
def parseUnary : ℕ → List Tok → Option (Expr × List Tok)
  | 0, _ => none
  | n + 1, .minus :: ts =>
      match parseUnary n ts with
      | some (e, rest) => some (.neg e, rest)
      | none => none
  | n + 1, .plus :: ts => parseUnary n ts
  | _ + 1, .num m s :: ts => some (.lit m s, ts)
  | n + 1, .lparen :: ts => closeParen id (parseAdditive n ts)
  | n + 1, .ident f :: .lparen :: ts =>
      if f = "exp" then closeParen .exp (parseAdditive n ts) else none
  | _ + 1, .ident x :: ts => some (.var x, ts)
  | _ + 1, _ => none
/-- Left-associative tail of a product. -/
def parseMulRest : ℕ → Expr → List Tok → Option (Expr × List Tok)
  | 0, _, _ => none
  | n + 1, lhs, .star :: ts =>
      match parseUnary n ts with
      | some (rhs, rest) => parseMulRest n (.mul lhs rhs) rest
      | none => none
  | _ + 1, lhs, ts => some (lhs, ts)
/-- Multiplicative level. -/
def parseMultiplicative : ℕ → List Tok → Option (Expr × List Tok)
  | 0, _ => none
  | n + 1, ts =>
      match parseUnary n ts with
      | some (lhs, rest) => parseMulRest n lhs rest
      | none => none
/-- Left-associative tail of a sum. -/
def parseAddRest : ℕ → Expr → List Tok → Option (Expr × List Tok)
  | 0, _, _ => none
  | n + 1, lhs, .plus :: ts =>
      match parseMultiplicative n ts with
      | some (rhs, rest) => parseAddRest n (.add lhs rhs) rest
      | none => none
  | n + 1, lhs, .minus :: ts =>
      match parseMultiplicative n ts with
      | some (rhs, rest) => parseAddRest n (.sub lhs rhs) rest
      | none => none
  | _ + 1, lhs, ts => some (lhs, ts)
/-- Additive level, the lowest precedence among the operators of the file. -/
def parseAdditive : ℕ → List Tok → Option (Expr × List Tok)
  | 0, _ => none
  | n + 1, ts =>
      match parseMultiplicative n ts with
      | some (lhs, rest) => parseAddRest n lhs rest
      | none => none
end

/-- Parse of a complete token list as one expression.  Every parser call
consumes one unit of fuel; `4 * k + 4` units are supplied for `k` tokens. -/
def parseExpr (ts : List Tok) : Option Expr :=
  match parseAdditive (4 * ts.length + 4) ts with
  | some (e, []) => some e
  | _ => none

/-- Value of an expression in a field, with the library function `exp` and the
values of the variables supplied. -/
def Expr.eval {α : Type} [Field α] (exp : α → α) (env : String → α) : Expr → α
  | .lit m s => (m : α) / 10 ^ s
  | .var x => env x
  | .neg e => - e.eval exp env
  | .mul a b => a.eval exp env * b.eval exp env
  | .add a b => a.eval exp env + b.eval exp env
  | .sub a b => a.eval exp env - b.eval exp env
  | .exp e => exp (e.eval exp env)

/-! ## Value layer -/

/-- Density `F(sample)`: `0.3989423 * exp(-0.5 * sample * sample)`. -/
def F {α : Type} [Field α] (exp : α → α) (sample : α) : α :=
  0.3989423 * exp (-0.5 * sample * sample)

/-! ## The instantiation seen by the template files -/

/-- Definition table in force where `stors_sample.c`, the first template file,
is included, starting from the empty table. -/
def instantiation (inc : String → DefTable → DefTable) : Option DefTable :=
  tableAt inc "stors_sample.c" [] snorm_c

/-- Modelled from the spec: the tail-strategy tags.  The header `macro_var.h`
that gives the tag names their meaning is not under `src/`; the spec fixes the
closed set adaptive-rejection, inverse-transform, and `ARS` is the tag of the
adaptive-rejection strategy. -/
inductive TailStrategy
  | adaptiveRejection
  | inverseTransform
  deriving DecidableEq

/-- Modelled from the spec: the tags the absent `macro_var.h` offers for a
tail, "an independent tail-strategy choice per side from {adaptive-rejection,
inverse-transform}". -/
def TailStrategy.allowed : List TailStrategy :=
  [.adaptiveRejection, .inverseTransform]

/-- Reading of an object-like definition as a tail tag.  Only the tag `ARS`
occurs in the source; the spelling of the inverse-transform tag belongs to the
absent header, so no other name is recognised. -/
def Defn.asTailTag : Defn → Option TailStrategy
  | ⟨none, [.ident tag]⟩ => if tag = "ARS" then some .adaptiveRejection else none
  | _ => none

/-- Reading of an object-like definition as an integer constant. -/
def Defn.asCount : Defn → Option ℕ
  | ⟨none, [.num m 0]⟩ => some m
  | _ => none

/-- Reading of an object-like definition as a single name. -/
def Defn.asName : Defn → Option String
  | ⟨none, [.ident x]⟩ => some x
  | _ => none

/-- Value of `NAME` in the instantiation. -/
def NAME (inc : String → DefTable → DefTable) : Option String :=
  (instantiation inc).bind fun t => (t.find "NAME").bind Defn.asName

/-- Value of `CNUM` in the instantiation. -/
def CNUM (inc : String → DefTable → DefTable) : Option ℕ :=
  (instantiation inc).bind fun t => (t.find "CNUM").bind Defn.asCount

/-- Value of `L_TAIL` in the instantiation. -/
def L_TAIL (inc : String → DefTable → DefTable) : Option TailStrategy :=
  (instantiation inc).bind fun t => (t.find "L_TAIL").bind Defn.asTailTag

/-- Value of `R_TAIL` in the instantiation. -/
def R_TAIL (inc : String → DefTable → DefTable) : Option TailStrategy :=
  (instantiation inc).bind fun t => (t.find "R_TAIL").bind Defn.asTailTag

/-- Whether the name has a definition in the instantiation. -/
def isDefined (inc : String → DefTable → DefTable) (name : String) : Bool :=
  match instantiation inc with
  | some t => (t.find name).isSome
  | none => false

/-- Tokens of the invocation `F(arg)` in the instantiation. -/
def F_tokens (inc : String → DefTable → DefTable) (arg : List Tok) :
    Option (List Tok) :=
  (instantiation inc).bind fun t => (t.find "F").bind fun d => d.invoke [arg]

/-- Value of the invocation `F(arg)`: expand, parse, evaluate. -/
def F_value {α : Type} [Field α] (exp : α → α) (env : String → α)
    (inc : String → DefTable → DefTable) (arg : List Tok) : Option α :=
  ((F_tokens inc arg).bind parseExpr).map (Expr.eval exp env)

/-- Included files that leave the definition table as they found it. -/
def noDefinitions : String → DefTable → DefTable :=
  fun _ t => t

/-! ## The configuration check

`snorm.c` only sets the configuration; which strategy a tag name stands for is
decided by the header `macro_var.h`, and the check of a configuration belongs
to the template files.  Neither is part of the embedded source.  The tag `ARS`
that the source uses is the adaptive-rejection tag; the spelling of the
inverse-transform tag is the parameter `itTag` below. -/

/-- Modelled from the spec: reading of an object-like definition as a tail tag
when the absent `macro_var.h` spells the inverse-transform tag `itTag`: `ARS`
is adaptive-rejection, `itTag` is inverse-transform, any other name is no
tag. -/
def Defn.readTailTag (itTag : String) : Defn → Option TailStrategy
  | ⟨none, [.ident tag]⟩ =>
      if tag = "ARS" then some .adaptiveRejection
      else if tag = itTag then some .inverseTransform
      else none
  | _ => none

/-- Modelled from the spec: the DistributionConfig the absent template files
receive, "segment count `N`, left-tail strategy tag, right-tail strategy tag",
together with whether the inverse tail CDF of each side is supplied.  A
missing or unreadable entry is `none`. -/
structure DistributionConfig where
  segments : Option ℕ
  leftTail : Option TailStrategy
  rightTail : Option TailStrategy
  leftInverse : Bool
  rightInverse : Bool
  deriving DecidableEq

/-- Configuration a file hands to the first template file: the values of
`CNUM`, `L_TAIL` and `R_TAIL` and whether `L_ITF` and `R_ITF` are defined
there. -/
def configurationOf (src : List Directive) (itTag : String)
    (inc : String → DefTable → DefTable) : Option DistributionConfig :=
  (tableAt inc "stors_sample.c" [] src).map fun t =>
    { segments := (t.find "CNUM").bind Defn.asCount
      leftTail := (t.find "L_TAIL").bind (Defn.readTailTag itTag)
      rightTail := (t.find "R_TAIL").bind (Defn.readTailTag itTag)
      leftInverse := (t.find "L_ITF").isSome
      rightInverse := (t.find "R_ITF").isSome }

/-- Configuration `snorm.c` hands to the first template file. -/
def configuration (itTag : String) (inc : String → DefTable → DefTable) :
    Option DistributionConfig :=
  configurationOf snorm_c itTag inc

/-- Modelled from the spec: "invalid segment count" of the error taxonomy (the
check is in the absent template files); the segment count is to be "a
positive integer". -/
def DistributionConfig.invalidSegmentCount (c : DistributionConfig) : Bool :=
  match c.segments with
  | some n => decide (n < 1)
  | none => true

/-- Modelled from the spec: "inconsistent tail-strategy/Density-Provider pairing
(inverse-transform requested without an inverse CDF)" of the error taxonomy
(the check is in the absent template files), on either side. -/
def DistributionConfig.inconsistentPairing (c : DistributionConfig) : Bool :=
  (c.leftTail == some .inverseTransform && !c.leftInverse) ||
  (c.rightTail == some .inverseTransform && !c.rightInverse)

/-- Modelled from the spec: the configuration errors of the error taxonomy that
concern the configuration (the check is in the absent template files). -/
def DistributionConfig.isConfigurationError (c : DistributionConfig) : Bool :=
  c.invalidSegmentCount || c.inconsistentPairing

/-- Variant of `snorm.c` used to exercise the configuration check: both tails
carry the tag `IT` instead of `ARS`, everything else is as in the file, so the
inverse CDFs stay undefined. -/
def snorm_c_inverse : List Directive :=
  [ .includeFile "snorm.h",
    .includeFile "macro_var.h",
    .define "NAME" ⟨none, [.ident "srnorm"]⟩,
    .define "CNUM" ⟨none, [.num 1 0]⟩,
    .define "L_TAIL" ⟨none, [.ident "IT"]⟩,
    .define "R_TAIL" ⟨none, [.ident "IT"]⟩,
    .define "F" ⟨some ["sample"], F_body⟩,
    .includeFile "stors_sample.c",
    .includeFile "stors_trunc_nav.c",
    .includeFile "stors_sample_trunc.c",
    .undefine "CNUM",
    .undefine "L_TAIL",
    .undefine "R_TAIL" ]

/-! ## Truncated sampling

The template files `stors_sample.c`, `stors_trunc_nav.c` and
`stors_sample_trunc.c` are included by `snorm.c` but are not part of the
embedded source.  The definitions of this section follow the spec's
description of them. -/

/-- Modelled from the spec: a truncation bound, "both finite or ±infinite".
The bounds type belongs to the absent `stors_trunc_nav.c`. -/
inductive Bound (α : Type)
  | negInf
  | finite (x : α)
  | posInf
  deriving DecidableEq

/-- Modelled from the spec: strict order of two bounds, used for the request
condition `lowerBound < upperBound` of the absent `stors_trunc_nav.c`. -/
def Bound.lt {α : Type} [LinearOrderedField α] : Bound α → Bound α → Bool
  | .negInf, .finite _ => true
  | .negInf, .posInf => true
  | .finite a, .finite b => decide (a < b)
  | .finite _, .posInf => true
  | _, _ => false

/-- Modelled from the spec: `lowerBound ≤ x` for a bound of the absent
`stors_trunc_nav.c` and a sample `x`. -/
def Bound.below {α : Type} [LinearOrderedField α] : Bound α → α → Prop
  | .negInf, _ => True
  | .finite a, x => a ≤ x
  | .posInf, _ => False

/-- Modelled from the spec: `x ≤ upperBound` for a bound of the absent
`stors_trunc_nav.c` and a sample `x`. -/
def Bound.above {α : Type} [LinearOrderedField α] : Bound α → α → Prop
  | .negInf, _ => False
  | .finite b, x => x ≤ b
  | .posInf, _ => True

instance Bound.decBelow {α : Type} [LinearOrderedField α] :
    (b : Bound α) → (x : α) → Decidable (b.below x)
  | .negInf, _ => isTrue trivial
  | .finite a, x => inferInstanceAs (Decidable (a ≤ x))
  | .posInf, _ => isFalse id

instance Bound.decAbove {α : Type} [LinearOrderedField α] :
    (b : Bound α) → (x : α) → Decidable (b.above x)
  | .negInf, _ => isFalse id
  | .finite b, x => inferInstanceAs (Decidable (x ≤ b))
  | .posInf, _ => isTrue trivial

/-- Modelled from the spec: lower end of a range clipped to the lower bound
(clipping of "partially-overlapping boundary segments" in the absent
`stors_trunc_nav.c`). -/
def Bound.clipLo {α : Type} [LinearOrderedField α] : Bound α → α → α
  | .finite a, lo => max a lo
  | _, lo => lo

/-- Modelled from the spec: upper end of a range clipped to the upper bound
(clipping of "partially-overlapping boundary segments" in the absent
`stors_trunc_nav.c`). -/
def Bound.clipHi {α : Type} [LinearOrderedField α] : Bound α → α → α
  | .finite b, hi => min b hi
  | _, hi => hi

/-- Modelled from the spec: one entry of the SegmentTable of the absent
`stors_sample.c`, "lower/upper x-bound, associated rectangle height,
precomputed squeeze threshold". -/
structure Segment (α : Type) where
  lo : α
  hi : α
  height : α
  squeeze : α

/-- Modelled from the spec: the two tails, left and right of the body (the
tail regions of the absent `stors_trunc_nav.c`). -/
inductive Side
  | left
  | right
  deriving DecidableEq

/-- Modelled from the spec: a surviving region of a TruncationWindow (absent
`stors_trunc_nav.c`): a body segment with its clipped range, or a tail with
its boundary. -/
inductive Region (α : Type)
  | body (seg : Segment α) (lo hi : α)
  | tail (side : Side) (boundary : α)

/-- Modelled from the spec: the TruncationWindow of the absent
`stors_trunc_nav.c`, "`(lowerBound, upperBound)` plus the derived list of
`(regionId, renormalizedWeight)` pairs". -/
structure TruncationWindow (α : Type) where
  lowerBound : Bound α
  upperBound : Bound α
  regions : List (Region α × α)

/-- Modelled from the spec: outcome of one accept/reject attempt of the absent
samplers: a candidate is accepted, or rejected, or the supplied uniform draws
ran out.  The unused draws are handed back. -/
inductive Attempt (α : Type)
  | accept (x : α) (rest : List α)
  | reject (rest : List α)
  | exhausted

/-- Modelled from the spec: what the generic engine of the absent template
files works with: the density `f`, the SegmentTable, the mass of `f` over a
clipped body range, the mass of a tail between its boundary and the far
window edge, and the tail sampler of each side acting on its envelope state
`σ`. -/
structure Engine (α σ : Type) where
  f : α → α
  table : List (Segment α)
  mass : α → α → α
  tailMass : Side → α → Bound α → α
  tailSample : Side → σ → α → List α → Attempt α × σ

/-- Modelled from the spec: the request check of `navigate` in the absent
`stors_trunc_nav.c`; "malformed truncation bounds (`lower >= upper`, both
infinite)" are rejected. -/
def validBounds {α : Type} [LinearOrderedField α] (lower upper : Bound α) : Bool :=
  lower.lt upper && !(lower == .negInf && upper == .posInf)

/-- Modelled from the spec: body part of `navigate` (absent
`stors_trunc_nav.c`): segments that intersect the interval are kept with
their range clipped and their mass recomputed over the clipped range,
"segments fully outside are dropped". -/
def clipSegment {α σ : Type} [LinearOrderedField α] (e : Engine α σ)
    (lower upper : Bound α) (s : Segment α) : Option (Region α × α) :=
  let lo := lower.clipLo s.lo
  let hi := upper.clipHi s.hi
  if lo ≤ hi then some (.body s lo hi, e.mass lo hi) else none

/-- Modelled from the spec: left-tail part of `navigate` (absent
`stors_trunc_nav.c`): the tail is touched when the lower bound "lies beyond
the last body segment on that side"; its boundary is the window edge. -/
def leftTailRegion {α σ : Type} [LinearOrderedField α] (e : Engine α σ)
    (lower upper : Bound α) : List (Region α × α) :=
  match e.table.head? with
  | none => []
  | some s =>
      if lower.lt (.finite s.lo) then
        [(.tail .left (upper.clipHi s.lo), e.tailMass .left (upper.clipHi s.lo) lower)]
      else []

/-- Modelled from the spec: right-tail part of `navigate` (absent
`stors_trunc_nav.c`), the mirror image of the left-tail part. -/
def rightTailRegion {α σ : Type} [LinearOrderedField α] (e : Engine α σ)
    (lower upper : Bound α) : List (Region α × α) :=
  match e.table.getLast? with
  | none => []
  | some s =>
      if (Bound.finite s.hi).lt upper then
        [(.tail .right (lower.clipLo s.hi), e.tailMass .right (lower.clipLo s.hi) upper)]
      else []

/-- Modelled from the spec: `navigate(lowerBound, upperBound)` of the absent
`stors_trunc_nav.c`: surviving regions with their masses, renormalised "to sum
to 1"; a malformed request gives no window. -/
def navigate {α σ : Type} [LinearOrderedField α] (e : Engine α σ)
    (lower upper : Bound α) : Option (TruncationWindow α) :=
  if validBounds lower upper then
    let raw := leftTailRegion e lower upper
      ++ e.table.filterMap (clipSegment e lower upper)
      ++ rightTailRegion e lower upper
    let total := (raw.map Prod.snd).sum
    some ⟨lower, upper, raw.map fun p => (p.1, p.2 / total)⟩
  else none

/-- Modelled from the spec: selection of "a surviving region by its
renormalized weight" (absent `stors_sample_trunc.c`) from one uniform draw. -/
def selectRegion {α : Type} [LinearOrderedField α] :
    α → List (Region α × α) → Option (Region α)
  | _, [] => none
  | u, (r, w) :: rest => if u < w then some r else selectRegion (u - w) rest

/-- Modelled from the spec: one accept/reject attempt of the body sampler
(absent `stors_sample.c`) restricted to a clipped range: "draw `u` uniform
within the segment's x-range; accept immediately if `u` lies under the
segment's squeeze bound; otherwise evaluate `f(u)` exactly and accept iff a
second uniform scaled by the rectangle height is `≤ f(u)`", with the
unclipped rectangle height. -/
def bodyAttempt {α : Type} [LinearOrderedField α] (f : α → α) (seg : Segment α)
    (lo hi : α) : List α → Attempt α
  | [] => .exhausted
  | u :: rest =>
      let x := lo + u * (hi - lo)
      if x < seg.squeeze then .accept x rest
      else
        match rest with
        | [] => .exhausted
        | v :: rest2 => if v * seg.height ≤ f x then .accept x rest2 else .reject rest2

/-- Modelled from the spec: the loop of `sampleTruncated(window)` (absent
`stors_sample_trunc.c`): "repeated weighted selection among surviving regions
... until a candidate lands inside the truncation interval"; "on any internal
rejection, restart from region selection".  Each round uses at least the
selection draw; the first argument caps the number of rounds. -/
def sampleLoop {α σ : Type} [LinearOrderedField α] (e : Engine α σ)
    (w : TruncationWindow α) : ℕ → σ → List α → Option α
  | 0, _, _ => none
  | _ + 1, _, [] => none
  | n + 1, st, u :: rest =>
      match selectRegion u w.regions with
      | none => sampleLoop e w n st rest
      | some (.body seg lo hi) =>
          match bodyAttempt e.f seg lo hi rest with
          | .accept x rest2 =>
              if w.lowerBound.below x ∧ w.upperBound.above x then some x
              else sampleLoop e w n st rest2
          | .reject rest2 => sampleLoop e w n st rest2
          | .exhausted => none
      | some (.tail side boundary) =>
          match e.tailSample side st boundary rest with
          | (.accept x rest2, st2) =>
              if w.lowerBound.below x ∧ w.upperBound.above x then some x
              else sampleLoop e w n st2 rest2
          | (.reject rest2, st2) => sampleLoop e w n st2 rest2
          | (.exhausted, _) => none

/-- Modelled from the spec: the public operation
`sampleTruncated(lowerBound, upperBound) -> x` of the absent
`stors_sample_trunc.c`, run on a finite sequence of uniform draws: navigate,
then sample from the window.  No result means the request was rejected or
the draws ran out before a candidate was accepted. -/
def sampleTruncated {α σ : Type} [LinearOrderedField α] (e : Engine α σ)
    (lower upper : Bound α) (st : σ) (draws : List α) : Option α :=
  match navigate e lower upper with
  | none => none
  | some w => sampleLoop e w draws.length st draws

/-- Modelled from the spec: the engine of the absent template files as
`snorm.c` instantiates it: the density is `F`, and the tail sampler of both
sides is the adaptive-rejection sampler `ars` (`L_TAIL` and `R_TAIL` are both
`ARS`). -/
def srnormEngine {α σ : Type} [LinearOrderedField α] (exp : α → α)
    (table : List (Segment α)) (mass : α → α → α)
    (tailMass : Side → α → Bound α → α)
    (ars : Side → σ → α → List α → Attempt α × σ) : Engine α σ :=
  { f := F exp, table := table, mass := mass, tailMass := tailMass, tailSample := ars }

/-! ## Supporting lemmas -/

/-- Worked-example tail sampler: the candidate is `boundary + 4 * u` on the
right and `boundary - 4 * u` on the left, and it is always accepted. -/
def stretchTail {α : Type} [LinearOrderedField α] :
    Side → Unit → α → List α → Attempt α × Unit
  | _, st, _, [] => (.exhausted, st)
  | .right, st, b, u :: rest => (.accept (b + 4 * u) rest, st)
  | .left, st, b, u :: rest => (.accept (b - 4 * u) rest, st)

/-- Over the reals the density is `0.3989423 * exp (-(x ^ 2 / 2))`. -/
theorem F_real (x : ℝ) : F Real.exp x = 0.3989423 * Real.exp (-(x ^ 2 / 2)) := by
  unfold F
  congr 2
  ring

/-- The leading constant times `sqrt (2 * pi)` lies strictly between `1` and
`1 + 1e-7`. -/
theorem scale_bounds :
    1 < 0.3989423 * Real.sqrt (2 * Real.pi) ∧
      0.3989423 * Real.sqrt (2 * Real.pi) < 1 + 1e-7 := by
  have hlo : (1 / 0.3989423 : ℝ) < Real.sqrt (2 * Real.pi) := by
    apply Real.lt_sqrt_of_sq_lt
    have := Real.pi_gt_d20
    norm_num at this ⊢
    linarith
  have hhi : Real.sqrt (2 * Real.pi) < (1 + 1e-7) / 0.3989423 := by
    rw [Real.sqrt_lt' (by norm_num)]
    have := Real.pi_lt_d20
    norm_num at this ⊢
    linarith
  constructor
  · have := mul_lt_mul_of_pos_left hlo (show (0 : ℝ) < 0.3989423 by norm_num)
    norm_num at this ⊢
    linarith
  · have := mul_lt_mul_of_pos_left hhi (show (0 : ℝ) < 0.3989423 by norm_num)
    norm_num at this ⊢
    linarith

/-- The definitions `snorm.c` itself makes are in force where the first
template file is included, whatever the two headers define. -/
theorem instantiation_eq (inc : String → DefTable → DefTable) :
    ∃ t, instantiation inc = some t ∧
      t.find "NAME" = some ⟨none, [.ident "srnorm"]⟩ ∧
      t.find "CNUM" = some ⟨none, [.num 1 0]⟩ ∧
      t.find "L_TAIL" = some ⟨none, [.ident "ARS"]⟩ ∧
      t.find "R_TAIL" = some ⟨none, [.ident "ARS"]⟩ ∧
      t.find "F" = some ⟨some ["sample"], F_body⟩ := by
  refine ⟨_, rfl, ?_⟩
  simp [DefTable.find, DefTable.defineAs, DefTable.undefine, List.lookup]

/-- The configuration check is not idle: with the inverse-transform tag
spelled `IT`, the variant of the file that requests it on both sides without
an inverse CDF is a configuration error, and so is a segment count of `0`. -/
theorem configuration_error_detected :
    (configurationOf snorm_c_inverse "IT" noDefinitions).map
        DistributionConfig.isConfigurationError = some true ∧
      (configurationOf snorm_c_inverse "IT" noDefinitions).map
        DistributionConfig.inconsistentPairing = some true ∧
      DistributionConfig.isConfigurationError
        ⟨some 1, some .inverseTransform, some .adaptiveRejection, false, true⟩ = true ∧
      DistributionConfig.isConfigurationError
        ⟨some 1, some .adaptiveRejection, some .inverseTransform, true, false⟩ = true ∧
      DistributionConfig.isConfigurationError
        ⟨some 0, some .adaptiveRejection, some .adaptiveRejection, false, false⟩ = true ∧
      DistributionConfig.isConfigurationError
        ⟨some 1, some .inverseTransform, some .inverseTransform, true, true⟩ = false := by
  decide

/-- Parse of `F(s)` for a name `s`. -/
theorem parse_F_ident (inc : String → DefTable → DefTable) (s : String) :
    (F_tokens inc [.ident s]).bind parseExpr =
      some (.mul (.lit 3989423 7)
        (.exp (.mul (.mul (.neg (.lit 5 1)) (.var s)) (.var s)))) := by
  obtain ⟨t, ht, -, -, -, -, hF⟩ := instantiation_eq inc
  simp only [F_tokens, ht, Option.some_bind, hF]
  rfl

/-- Parse of `F(c)` for a decimal literal `c`. -/
theorem parse_F_num (inc : String → DefTable → DefTable) (m k : ℕ) :
    (F_tokens inc [.num m k]).bind parseExpr =
      some (.mul (.lit 3989423 7)
        (.exp (.mul (.mul (.neg (.lit 5 1)) (.lit m k)) (.lit m k)))) := by
  obtain ⟨t, ht, -, -, -, -, hF⟩ := instantiation_eq inc
  simp only [F_tokens, ht, Option.some_bind, hF]
  rfl

/-- Parse of `F(a + b)`: the exponent is `-0.5 * a + b * a + b`. -/
theorem parse_F_sum (inc : String → DefTable → DefTable) :
    (F_tokens inc [.ident "a", .plus, .ident "b"]).bind parseExpr =
      some (.mul (.lit 3989423 7)
        (.exp (.add (.add (.mul (.neg (.lit 5 1)) (.var "a"))
          (.mul (.var "b") (.var "a"))) (.var "b")))) := by
  obtain ⟨t, ht, -, -, -, -, hF⟩ := instantiation_eq inc
  simp only [F_tokens, ht, Option.some_bind, hF]
  rfl

/-- A result of the sampling loop lies in the window. -/
theorem sampleLoop_in_window {α σ : Type} [LinearOrderedField α] (e : Engine α σ)
    (w : TruncationWindow α) (n : ℕ) (st : σ) (draws : List α) (x : α)
    (h : sampleLoop e w n st draws = some x) :
    w.lowerBound.below x ∧ w.upperBound.above x := by
  induction n generalizing st draws with
  | zero => simp [sampleLoop] at h
  | succ n ih =>
    cases draws with
    | nil => simp [sampleLoop] at h
    | cons u rest =>
      simp only [sampleLoop] at h
      split at h
      · exact ih _ _ h
      · split at h
        · split at h
          · cases h; assumption
          · exact ih _ _ h
        · exact ih _ _ h
        · cases h
      · split at h
        · split at h
          · cases h; assumption
          · exact ih _ _ h
        · exact ih _ _ h
        · cases h

/-- A window produced by `navigate` carries the requested bounds, and the
request was well-formed. -/
theorem navigate_bounds {α σ : Type} [LinearOrderedField α] (e : Engine α σ)
    (lower upper : Bound α) (w : TruncationWindow α)
    (h : navigate e lower upper = some w) :
    validBounds lower upper = true ∧ w.lowerBound = lower ∧ w.upperBound = upper := by
  unfold navigate at h
  split at h
  · rename_i hv
    cases h
    exact ⟨hv, rfl, rfl⟩
  · cases h

/-- A body candidate drawn with uniforms from `[0, 1]` lies in the clipped
range it was drawn for. -/
theorem bodyAttempt_in_range {α : Type} [LinearOrderedField α] (f : α → α)
    (seg : Segment α) (lo hi : α) (draws rest : List α) (x : α)
    (hr : lo ≤ hi) (hu : ∀ u ∈ draws, 0 ≤ u ∧ u ≤ 1)
    (h : bodyAttempt f seg lo hi draws = .accept x rest) : lo ≤ x ∧ x ≤ hi := by
  cases draws with
  | nil => simp [bodyAttempt] at h
  | cons u tl =>
    have h0 := (hu u (List.mem_cons_self _ _)).1
    have h1 := (hu u (List.mem_cons_self _ _)).2
    have hx : lo ≤ lo + u * (hi - lo) ∧ lo + u * (hi - lo) ≤ hi := by
      constructor
      · nlinarith [mul_nonneg h0 (sub_nonneg.mpr hr)]
      · nlinarith [mul_nonneg (sub_nonneg.mpr h1) (sub_nonneg.mpr hr)]
    simp only [bodyAttempt] at h
    split at h
    · cases h; exact hx
    · cases tl with
      | nil => simp at h
      | cons v tl2 =>
        simp only at h
        split at h
        · cases h; exact hx
        · cases h

/-! ## The density over the real numbers -/

/-- C1: over the reals the density is finite, positive and bounded by its value
at the mode: `0 < F x ≤ 0.3989423 = F 0` for every real `x`. -/
theorem F_pos_and_bounded (x : ℝ) :
    0 < F Real.exp x ∧ F Real.exp x ≤ 0.3989423 ∧
      F Real.exp x ≤ F Real.exp 0 ∧ F Real.exp 0 = 0.3989423 := by
  have h0 : F Real.exp 0 = 0.3989423 := by simp [F]
  have hle : F Real.exp x ≤ 0.3989423 := by
    rw [F_real]
    have : Real.exp (-(x ^ 2 / 2)) ≤ 1 := by
      rw [Real.exp_le_one_iff]
      have := sq_nonneg x
      linarith
    nlinarith
  refine ⟨?_, hle, by rw [h0]; exact hle, h0⟩
  rw [F_real]
  have := Real.exp_pos (-(x ^ 2 / 2))
  positivity

/-- C2: the density decreases away from its mode `0` on each side: for reals
`x < y`, `F y < F x` when `0 ≤ x`, and `F x < F y` when `y ≤ 0`. -/
theorem F_decreasing_away_from_mode (x y : ℝ) (hxy : x < y) :
    (0 ≤ x → F Real.exp y < F Real.exp x) ∧
      (y ≤ 0 → F Real.exp x < F Real.exp y) := by
  simp only [F_real]
  constructor
  · intro hx
    have : Real.exp (-(y ^ 2 / 2)) < Real.exp (-(x ^ 2 / 2)) := by
      rw [Real.exp_lt_exp]
      nlinarith
    linarith
  · intro hy
    have : Real.exp (-(x ^ 2 / 2)) < Real.exp (-(y ^ 2 / 2)) := by
      rw [Real.exp_lt_exp]
      nlinarith
    linarith

/-- C2 at concrete points: `F 1 < F 0` on the right and `F (-1) < F 0` on the
left. -/
theorem F_decreasing_away_from_mode_witness :
    ((0 : ℝ) < 1 ∧ (0 : ℝ) ≤ 0 ∧ F Real.exp 1 < F Real.exp 0) ∧
      ((-1 : ℝ) < 0 ∧ (0 : ℝ) ≤ 0 ∧ F Real.exp (-1) < F Real.exp 0) :=
  ⟨⟨one_pos, le_refl 0, (F_decreasing_away_from_mode 0 1 one_pos).1 (le_refl 0)⟩,
    ⟨by norm_num, le_refl 0,
      (F_decreasing_away_from_mode (-1) 0 (by norm_num)).2 (le_refl 0)⟩⟩

/-- C3 as stated fails at `x = 0`: `F 0 = 0.3989423` is not `1 / sqrt (2 * pi)`,
the value of the standard normal density at `0`. -/
theorem F_zero_ne_standard_normal :
    F Real.exp 0 ≠ 1 / Real.sqrt (2 * Real.pi) * Real.exp (-(0 : ℝ) ^ 2 / 2) := by
  have h := scale_bounds.1
  intro heq
  have hl : F Real.exp 0 = 0.3989423 := by simp [F]
  have hr : 1 / Real.sqrt (2 * Real.pi) * Real.exp (-(0 : ℝ) ^ 2 / 2)
      = 1 / Real.sqrt (2 * Real.pi) := by simp
  rw [hl, hr] at heq
  have hs : 0 < Real.sqrt (2 * Real.pi) := by positivity
  have : 0.3989423 * Real.sqrt (2 * Real.pi) = 1 := by
    rw [heq]
    field_simp
  linarith

/-- C3 (amended): the density is the standard normal density up to the rounding
of its leading constant: `F x = k * ((1 / sqrt (2 * pi)) * exp (-x ^ 2 / 2))`
with `k = 0.3989423 * sqrt (2 * pi)`, where `1 < k < 1 + 1e-7`, so `F x`
exceeds the standard normal density by less than `1e-7` times that density. -/
theorem F_standard_normal_up_to_rounding (x : ℝ) :
    F Real.exp x = 0.3989423 * Real.exp (-0.5 * x * x) ∧
      F Real.exp x = (0.3989423 * Real.sqrt (2 * Real.pi)) *
        (1 / Real.sqrt (2 * Real.pi) * Real.exp (-x ^ 2 / 2)) ∧
      1 < 0.3989423 * Real.sqrt (2 * Real.pi) ∧
      0.3989423 * Real.sqrt (2 * Real.pi) < 1 + 1e-7 ∧
      |F Real.exp x - 1 / Real.sqrt (2 * Real.pi) * Real.exp (-x ^ 2 / 2)| <
        1e-7 * (1 / Real.sqrt (2 * Real.pi) * Real.exp (-x ^ 2 / 2)) := by
  have hs : 0 < Real.sqrt (2 * Real.pi) := by positivity
  have he : 0 < Real.exp (-x ^ 2 / 2) := Real.exp_pos _
  have hphi : 0 < 1 / Real.sqrt (2 * Real.pi) * Real.exp (-x ^ 2 / 2) := by positivity
  have hk : F Real.exp x = (0.3989423 * Real.sqrt (2 * Real.pi)) *
      (1 / Real.sqrt (2 * Real.pi) * Real.exp (-x ^ 2 / 2)) := by
    rw [F_real]
    have : -(x ^ 2 / 2) = -x ^ 2 / 2 := by ring
    rw [this]
    field_simp
    ring
  obtain ⟨h1, h2⟩ := scale_bounds
  refine ⟨rfl, hk, h1, h2, ?_⟩
  rw [hk, abs_lt]
  constructor <;> nlinarith

/-- C4: the density is integrable over the real line, its integral is
`0.3989423 * sqrt (2 * pi)`, and that value is within `1e-7` of `1`. -/
theorem F_total_mass :
    MeasureTheory.Integrable (fun x : ℝ => F Real.exp x) ∧
      ∫ x : ℝ, F Real.exp x = 0.3989423 * Real.sqrt (2 * Real.pi) ∧
      |0.3989423 * Real.sqrt (2 * Real.pi) - 1| < 1e-7 := by
  have hF : (fun x : ℝ => F Real.exp x)
      = fun x => 0.3989423 * Real.exp (-(1 / 2) * x ^ 2) := by
    funext x
    rw [F_real]
    congr 2
    ring
  refine ⟨?_, ?_, ?_⟩
  · rw [hF]
    exact (integrable_exp_neg_mul_sq (by norm_num)).const_mul _
  · rw [hF, MeasureTheory.integral_mul_left, integral_gaussian]
    congr 2
    ring
  · rw [abs_lt]
    constructor <;> linarith [scale_bounds.1, scale_bounds.2]

/-- C8: the density is log-concave on the real line: `log (F x)` is
`log 0.3989423 - x ^ 2 / 2`, and for `t` in `[0, 1]`,
`t * log (F x) + (1 - t) * log (F y) ≤ log (F (t * x + (1 - t) * y))`. -/
theorem F_log_concave (x y t : ℝ) (h0 : 0 ≤ t) (h1 : t ≤ 1) :
    Real.log (F Real.exp x) = Real.log 0.3989423 - x ^ 2 / 2 ∧
      t * Real.log (F Real.exp x) + (1 - t) * Real.log (F Real.exp y) ≤
        Real.log (F Real.exp (t * x + (1 - t) * y)) := by
  have hlog : ∀ z : ℝ, Real.log (F Real.exp z) = Real.log 0.3989423 - z ^ 2 / 2 := by
    intro z
    rw [F_real, Real.log_mul (by norm_num) (Real.exp_pos _).ne', Real.log_exp]
    ring
  refine ⟨hlog x, ?_⟩
  rw [hlog, hlog, hlog]
  nlinarith [mul_nonneg (mul_nonneg h0 (sub_nonneg.mpr h1)) (sq_nonneg (x - y))]

/-- C8 at `x = 0`, `y = 2`, `t = 1 / 2`. -/
theorem F_log_concave_witness :
    (0 : ℝ) ≤ 1 / 2 ∧ (1 / 2 : ℝ) ≤ 1 ∧
      (1 / 2 : ℝ) * Real.log (F Real.exp 0) + (1 - 1 / 2) * Real.log (F Real.exp 2) ≤
        Real.log (F Real.exp (1 / 2 * 0 + (1 - 1 / 2) * 2)) :=
  ⟨by norm_num, by norm_num,
    (F_log_concave 0 2 (1 / 2) (by norm_num) (by norm_num)).2⟩

/-- C9: the density is symmetric about `0`: `F (-x) = F x` for every real
`x`. -/
theorem F_symmetric (x : ℝ) : F Real.exp (-x) = F Real.exp x := by
  unfold F
  congr 2
  ring

/-! ## The configuration -/

/-- C5: in the instantiation `L_TAIL` and `R_TAIL` are both defined as the
token `ARS`, so both tails use the adaptive-rejection strategy, neither uses
inverse-transform, and both choices are in the allowed set. -/
theorem tails_are_adaptive_rejection (inc : String → DefTable → DefTable) :
    (∃ t, instantiation inc = some t ∧
      t.find "L_TAIL" = some ⟨none, [.ident "ARS"]⟩ ∧
      t.find "R_TAIL" = some ⟨none, [.ident "ARS"]⟩) ∧
    L_TAIL inc = some .adaptiveRejection ∧
    R_TAIL inc = some .adaptiveRejection ∧
    L_TAIL inc ≠ some .inverseTransform ∧
    R_TAIL inc ≠ some .inverseTransform ∧
    (∀ s, L_TAIL inc = some s → s ∈ TailStrategy.allowed) ∧
    (∀ s, R_TAIL inc = some s → s ∈ TailStrategy.allowed) := by
  obtain ⟨t, ht, -, -, hl, hr, -⟩ := instantiation_eq inc
  have hL : L_TAIL inc = some .adaptiveRejection := by
    simp [L_TAIL, ht, hl, Defn.asTailTag]
  have hR : R_TAIL inc = some .adaptiveRejection := by
    simp [R_TAIL, ht, hr, Defn.asTailTag]
  refine ⟨⟨t, ht, hl, hr⟩, hL, hR, ?_, ?_, ?_, ?_⟩
  · rw [hL]; decide
  · rw [hR]; decide
  · intro s hs
    rw [hL] at hs
    cases hs
    decide
  · intro s hs
    rw [hR] at hs
    cases hs
    decide

/-- C5 at included files that define nothing: both tail tags read as
adaptive-rejection, which is an allowed choice. -/
theorem tails_are_adaptive_rejection_witness :
    L_TAIL noDefinitions = some .adaptiveRejection ∧
      TailStrategy.adaptiveRejection ∈ TailStrategy.allowed :=
  ⟨(tails_are_adaptive_rejection noDefinitions).2.1,
    (tails_are_adaptive_rejection noDefinitions).2.2.2.2.2.1 _
      (tails_are_adaptive_rejection noDefinitions).2.1⟩

/-- C6: the configuration is not a configuration error.  `CNUM` is `1`, a
positive segment count; `L_TAIL` and `R_TAIL` are both the adaptive-rejection
tag, so whatever the inverse-transform tag is called, on neither side is
inverse-transform requested while the inverse CDF of that side is undefined;
the configuration handed to the template files passes the configuration
check.  The file itself defines neither `L_ITF` nor `R_ITF` (both lines are
comments), and with headers that define nothing both are undefined in the
instantiation. -/
theorem config_not_configuration_error (inc : String → DefTable → DefTable)
    (itTag : String) :
    CNUM inc = some 1 ∧ (∃ n, CNUM inc = some n ∧ 1 ≤ n) ∧
    L_TAIL inc = some .adaptiveRejection ∧
    R_TAIL inc = some .adaptiveRejection ∧
    (∃ c, configuration itTag inc = some c ∧
      c.segments = some 1 ∧
      c.leftTail = some .adaptiveRejection ∧
      c.rightTail = some .adaptiveRejection ∧
      c.leftInverse = isDefined inc "L_ITF" ∧
      c.rightInverse = isDefined inc "R_ITF" ∧
      ¬ (c.leftTail = some .inverseTransform ∧ c.leftInverse = false) ∧
      ¬ (c.rightTail = some .inverseTransform ∧ c.rightInverse = false) ∧
      c.invalidSegmentCount = false ∧
      c.inconsistentPairing = false ∧
      c.isConfigurationError = false) ∧
    "L_ITF" ∉ definedNames snorm_c ∧ "R_ITF" ∉ definedNames snorm_c ∧
    isDefined noDefinitions "L_ITF" = false ∧
    isDefined noDefinitions "R_ITF" = false ∧
    configuration itTag noDefinitions =
      some ⟨some 1, some .adaptiveRejection, some .adaptiveRejection, false, false⟩ := by
  obtain ⟨t, ht, -, hc, hl, hr, -⟩ := instantiation_eq inc
  have ht2 : tableAt inc "stors_sample.c" [] snorm_c = some t := ht
  have hC : CNUM inc = some 1 := by simp [CNUM, ht, hc, Defn.asCount]
  have hL : L_TAIL inc = some .adaptiveRejection := by
    simp [L_TAIL, ht, hl, Defn.asTailTag]
  have hR : R_TAIL inc = some .adaptiveRejection := by
    simp [R_TAIL, ht, hr, Defn.asTailTag]
  have hnone : configuration itTag noDefinitions =
      some ⟨some 1, some .adaptiveRejection, some .adaptiveRejection, false, false⟩ := by
    obtain ⟨t0, ht0, -, hc0, hl0, hr0, -⟩ := instantiation_eq noDefinitions
    have hi : (t0.find "L_ITF").isSome = false := by
      have := (show isDefined noDefinitions "L_ITF" = false by decide)
      simpa [isDefined, ht0] using this
    have hj : (t0.find "R_ITF").isSome = false := by
      have := (show isDefined noDefinitions "R_ITF" = false by decide)
      simpa [isDefined, ht0] using this
    have ht3 : tableAt noDefinitions "stors_sample.c" [] snorm_c = some t0 := ht0
    simp [configuration, configurationOf, ht3, hc0, hl0, hr0, hi, hj, Defn.asCount,
      Defn.readTailTag]
  have hcfg : configuration itTag inc = some
      { segments := (t.find "CNUM").bind Defn.asCount
        leftTail := (t.find "L_TAIL").bind (Defn.readTailTag itTag)
        rightTail := (t.find "R_TAIL").bind (Defn.readTailTag itTag)
        leftInverse := (t.find "L_ITF").isSome
        rightInverse := (t.find "R_ITF").isSome } := by
    simp only [configuration, configurationOf, ht2, Option.map_some']
  refine ⟨hC, ⟨1, hC, le_refl 1⟩, hL, hR, ⟨_, hcfg, ?_⟩, by decide, by decide,
    by decide, by decide, hnone⟩
  simp [hc, hl, hr, ht, isDefined, Defn.asCount, Defn.readTailTag,
    DistributionConfig.isConfigurationError, DistributionConfig.invalidSegmentCount,
    DistributionConfig.inconsistentPairing]

/-! ## The argument of `F` is substituted as text -/

/-- C10: the parameter of `F` is substituted without parentheses.  The
expansion of `F(a + b)` has the exponent `-0.5 * a + b * a + b`; at
`a = b = 1` its value is `0.3989423 * exp 1.5`, not the density at `1 + 1`,
which is `0.3989423 * exp (-2)`.  For an argument that is a single name or a
single literal the expansion evaluates to the density at the argument. -/
theorem F_argument_not_parenthesised (inc : String → DefTable → DefTable) :
    (F_tokens inc [.ident "a", .plus, .ident "b"]).bind parseExpr =
      some (.mul (.lit 3989423 7)
        (.exp (.add (.add (.mul (.neg (.lit 5 1)) (.var "a"))
          (.mul (.var "b") (.var "a"))) (.var "b")))) ∧
    F_value Real.exp (fun _ => 1) inc [.ident "a", .plus, .ident "b"] =
      some (0.3989423 * Real.exp 1.5) ∧
    F Real.exp (1 + 1) = 0.3989423 * Real.exp (-2) ∧
    F_value Real.exp (fun _ => 1) inc [.ident "a", .plus, .ident "b"] ≠
      some (F Real.exp (1 + 1)) ∧
    (∀ (env : String → ℝ) (s : String),
      F_value Real.exp env inc [.ident s] = some (F Real.exp (env s))) ∧
    (∀ (env : String → ℝ) (m k : ℕ),
      F_value Real.exp env inc [.num m k] = some (F Real.exp ((m : ℝ) / 10 ^ k))) := by
  have hv : F_value Real.exp (fun _ => 1) inc [.ident "a", .plus, .ident "b"] =
      some (0.3989423 * Real.exp 1.5) := by
    simp only [F_value, parse_F_sum, Option.map_some', Expr.eval]
    norm_num
  have hF : F Real.exp (1 + 1) = 0.3989423 * Real.exp (-2) := by
    simp only [F]
    norm_num
  refine ⟨parse_F_sum inc, hv, hF, ?_, ?_, ?_⟩
  · rw [hv, hF]
    intro h
    have h1 := Option.some.inj h
    have h2 : Real.exp 1.5 = Real.exp (-2) :=
      mul_left_cancel₀ (by norm_num : (0.3989423 : ℝ) ≠ 0) h1
    have h3 := Real.exp_injective h2
    norm_num at h3
  · intro env s
    simp only [F_value, parse_F_ident, Option.map_some', Expr.eval, F]
    norm_num
  · intro env m k
    simp only [F_value, parse_F_num, Option.map_some', Expr.eval, F]
    norm_num

/-! ## The truncated sampler -/

/-- C7: whenever the truncated sampler of the srnorm instantiation returns a
value `x` for bounds `lower`, `upper` and a sequence of uniform draws, the
request was well-formed and `lower ≤ x ≤ upper`. -/
theorem sampleTruncated_within_bounds {α σ : Type} [LinearOrderedField α]
    (exp : α → α) (table : List (Segment α)) (mass : α → α → α)
    (tailMass : Side → α → Bound α → α)
    (ars : Side → σ → α → List α → Attempt α × σ)
    (lower upper : Bound α) (st : σ) (draws : List α) (x : α)
    (h : sampleTruncated (srnormEngine exp table mass tailMass ars)
      lower upper st draws = some x) :
    validBounds lower upper = true ∧ lower.lt upper = true ∧
      lower.below x ∧ upper.above x := by
  unfold sampleTruncated at h
  split at h
  · cases h
  · rename_i w hw
    obtain ⟨hv, hl, hu⟩ := navigate_bounds _ _ _ _ hw
    have hin := sampleLoop_in_window _ _ _ _ _ _ h
    rw [hl, hu] at hin
    have hlt : lower.lt upper = true := by
      unfold validBounds at hv
      simp only [Bool.and_eq_true] at hv
      exact hv.1
    exact ⟨hv, hlt, hin.1, hin.2⟩

/-- C7 on a worked run over the reals with window `[0, 2]`, one body segment
`[-1, 1]` and a right tail starting at `1`: the first round selects the tail,
whose candidate `3` is outside the window and is discarded; the second round
selects the body and returns `1 / 4`, which lies in `[0, 2]`. -/
theorem sampleTruncated_within_bounds_witness :
    sampleTruncated
        (srnormEngine Real.exp [⟨-1, 1, 2 / 5, 1 / 2⟩] (fun lo hi => hi - lo)
          (fun _ _ _ => 1) stretchTail)
        (.finite 0) (.finite 2) () [3 / 4, 1 / 2, 1 / 4, 1 / 4] = some (1 / 4) ∧
      (Bound.finite (0 : ℝ)).below (1 / 4) ∧ (Bound.finite (2 : ℝ)).above (1 / 4) := by
  have hrun : sampleTruncated
      (srnormEngine Real.exp [⟨-1, 1, 2 / 5, 1 / 2⟩] (fun lo hi => hi - lo)
        (fun _ _ _ => 1) stretchTail)
      (.finite 0) (.finite 2) () [3 / 4, 1 / 2, 1 / 4, 1 / 4] = some (1 / 4) := by
    have hnav : navigate
        (srnormEngine Real.exp [⟨-1, 1, 2 / 5, 1 / 2⟩] (fun lo hi => hi - lo)
          (fun _ _ _ => 1) stretchTail) (.finite 0) (.finite 2)
        = some ⟨.finite 0, .finite 2,
            [(.body ⟨-1, 1, 2 / 5, 1 / 2⟩ 0 1, 1 / 2), (.tail .right 1, 1 / 2)]⟩ := by
      simp [navigate, validBounds, Bound.lt, srnormEngine, leftTailRegion,
        rightTailRegion, clipSegment, Bound.clipLo, Bound.clipHi]
      norm_num
    simp only [sampleTruncated, hnav, List.length]
    norm_num [sampleLoop, selectRegion, stretchTail, srnormEngine, Bound.below,
      Bound.above, bodyAttempt]
  have hres := sampleTruncated_within_bounds Real.exp _ _ _ _ _ _ _ _ _ hrun
  exact ⟨hrun, hres.2.2.1, hres.2.2.2⟩

end Snorm
